import Mathlib

/-!
Verification of the DashGraph plotting engine (src/plot.js) against its
natural-language specification.

Shallow embedding conventions:
* JavaScript numbers are modelled as exact rationals (`ℚ`); `Math.floor` /
  `Math.ceil` are `Int.floor` / `Int.ceil`, and `Math.floor(Math.log(d)/Math.LN10)`
  is `Int.log 10 d` (the exact base-10 logarithm floor).
* A JavaScript value that may be `undefined` is an `Option`; any relational
  comparison involving `undefined` is `false` (NaN semantics), and `null`
  coerces to `0` in relational comparisons (`ToNumber(null) = 0`).
* Arrays are `List`s; `a[i]` with an out-of-range or negative integer index is
  `undefined`.
* While loops are modelled with structural fuel, with lemmas showing the fuel
  supplied always suffices.
-/

namespace DashGraph

/-- JavaScript array indexing `a[i]` with an integer index: negative or
out-of-range indices yield `undefined`, modelled as `none`. -/
def jsGet {α : Type} (a : List α) (i : ℤ) : Option α :=
  if i < 0 then none else a[i.toNat]?

/-- JavaScript comparison `v <= x` where `v` may be `undefined`: a comparison
against `undefined` is a NaN comparison and evaluates to `false`. -/
def jsLeOpt {α : Type} [LinearOrder α] (v : Option α) (x : α) : Bool :=
  match v with
  | some w => decide (w ≤ x)
  | none => false

/-- JavaScript comparison `v > x` where `v` may be `undefined` (false then). -/
def jsGtOpt {α : Type} [LinearOrder α] (v : Option α) (x : α) : Bool :=
  match v with
  | some w => decide (x < w)
  | none => false

/-- JavaScript comparison `v < x` where `v` may be `undefined` (false then). -/
def jsLtOpt {α : Type} [LinearOrder α] (v : Option α) (x : α) : Bool :=
  match v with
  | some w => decide (w < x)
  | none => false

/-- JavaScript comparison `a > b` where either side may be `undefined`. -/
def jsGtOptOpt {α : Type} [LinearOrder α] (a b : Option α) : Bool :=
  match a, b with
  | some v, some w => decide (w < v)
  | _, _ => false

/-- JavaScript comparison `a < b` where either side may be `undefined`. -/
def jsLtOptOpt {α : Type} [LinearOrder α] (a b : Option α) : Bool :=
  match a, b with
  | some v, some w => decide (v < w)
  | _, _ => false

/-- JavaScript `ToNumber` coercion applied to a field holding `null` or a
number: `Number(null) = 0`.  Relational operators apply this to `null`. -/
def jsNumOrNull (v : Option ℚ) : ℚ :=
  match v with
  | some q => q
  | none => 0

/-- Loop of `DashGraph.binarySearch` (src/plot.js lines 1022-1030): narrows
`[lo, hi]` while `hi - lo > 1` with `mid = Math.round((lo+hi)/2)`.
`Math.round(q) = ⌊q + 1/2⌋`, so on integers `mid = (lo + hi + 1).fdiv 2`.
Structural fuel stands in for the `while`; `a.length` rounds always suffice
because the gap shrinks by at least one per round. -/
def bsGo {α : Type} [LinearOrder α] (a : List α) (x : α) : ℕ → ℤ → ℤ → ℤ × ℤ
  | 0, lo, hi => (lo, hi)
  | fuel + 1, lo, hi =>
    if 1 < hi - lo then
      if jsLeOpt (jsGet a ((lo + hi + 1).fdiv 2)) x then
        bsGo a x fuel ((lo + hi + 1).fdiv 2) hi
      else
        bsGo a x fuel lo ((lo + hi + 1).fdiv 2)
    else (lo, hi)

/-- `DashGraph.binarySearch(a, x, upper)` (src/plot.js lines 1021-1036):
starts from `lo = 0`, `hi = a.length - 1` and returns `hi` when `upper` is
truthy, `lo` otherwise. -/
def binarySearch {α : Type} [LinearOrder α] (a : List α) (x : α) (upper : Bool) : ℤ :=
  if upper then (bsGo a x a.length 0 ((a.length : ℤ) - 1)).2
  else (bsGo a x a.length 0 ((a.length : ℤ) - 1)).1

/-- Midpoint bounds: when the bracket is wider than one, `Math.round((lo+hi)/2)`
lies strictly between `lo` and `hi`. -/
theorem bsMid_bounds {lo hi : ℤ} (h : 1 < hi - lo) :
    lo + 1 ≤ (lo + hi + 1).fdiv 2 ∧ (lo + hi + 1).fdiv 2 ≤ hi - 1 := by
  rw [Int.fdiv_eq_ediv _ (by norm_num)]
  omega

/-- With fuel at least the initial gap, the loop terminates with `hi - lo ≤ 1`. -/
theorem bsGo_gap {α : Type} [LinearOrder α] (a : List α) (x : α) (fuel : ℕ) :
    ∀ lo hi : ℤ, (hi - lo).toNat ≤ fuel →
      (bsGo a x fuel lo hi).2 - (bsGo a x fuel lo hi).1 ≤ 1 := by
  induction fuel with
  | zero =>
    intro lo hi h
    simp only [bsGo]
    omega
  | succ fuel ih =>
    intro lo hi h
    rw [bsGo]
    split_ifs with hgap hle
    · exact ih _ _ (by have := bsMid_bounds hgap; omega)
    · exact ih _ _ (by have := bsMid_bounds hgap; omega)
    · omega

/-- The loop keeps `lo` and `hi` inside the initial bracket and never lets them
cross. -/
theorem bsGo_mem {α : Type} [LinearOrder α] (a : List α) (x : α) (fuel : ℕ) :
    ∀ lo hi : ℤ, lo < hi →
      lo ≤ (bsGo a x fuel lo hi).1 ∧
      (bsGo a x fuel lo hi).1 < (bsGo a x fuel lo hi).2 ∧
      (bsGo a x fuel lo hi).2 ≤ hi := by
  induction fuel with
  | zero =>
    intro lo hi h
    simp only [bsGo]
    omega
  | succ fuel ih =>
    intro lo hi h
    rw [bsGo]
    split_ifs with hgap hle
    · have hm := bsMid_bounds hgap
      have := ih ((lo + hi + 1).fdiv 2) hi (by omega)
      omega
    · have hm := bsMid_bounds hgap
      have := ih lo ((lo + hi + 1).fdiv 2) (by omega)
      omega
    · omega

theorem jsLeOpt_true_iff {α : Type} [LinearOrder α] (v : Option α) (x : α) :
    jsLeOpt v x = true ↔ ∃ w, v = some w ∧ w ≤ x := by
  cases v <;> simp [jsLeOpt]

theorem jsGet_eq_some_iff {α : Type} (a : List α) (i : ℤ) (v : α) :
    jsGet a i = some v ↔ 0 ≤ i ∧ ∃ h : i.toNat < a.length, a.get ⟨i.toNat, h⟩ = v := by
  unfold jsGet
  split_ifs with hneg
  · simp only [false_iff, not_and]
    omega
  · simp only [List.getElem?_eq_some, List.get_eq_getElem]
    constructor
    · rintro ⟨h, hv⟩
      exact ⟨by omega, h, hv⟩
    · rintro ⟨-, h, hv⟩
      exact ⟨h, hv⟩

theorem jsGet_of_range {α : Type} (a : List α) (i : ℤ) (h0 : 0 ≤ i)
    (h1 : i < (a.length : ℤ)) :
    ∃ v, jsGet a i = some v := by
  refine ⟨a.get ⟨i.toNat, by omega⟩, ?_⟩
  rw [jsGet_eq_some_iff]
  exact ⟨h0, by omega, rfl⟩

/-- Values of a strictly increasing list read through `jsGet` are monotone in
the index. -/
theorem jsGet_mono {α : Type} [LinearOrder α] {a : List α}
    (hsort : a.Pairwise (· < ·)) {i j : ℤ} (hij : i ≤ j) {v w : α}
    (hv : jsGet a i = some v) (hw : jsGet a j = some w) : v ≤ w := by
  rw [jsGet_eq_some_iff] at hv hw
  obtain ⟨hi0, hi, hv⟩ := hv
  obtain ⟨hj0, hj, hw⟩ := hw
  rcases eq_or_lt_of_le hij with h | h
  · subst h
    rw [← hv, ← hw]
  · have hlt : i.toNat < j.toNat := by omega
    have := List.pairwise_iff_get.mp hsort ⟨i.toNat, hi⟩ ⟨j.toNat, hj⟩ hlt
    rw [hv, hw] at this
    exact le_of_lt this

/-- Semantic bracket maintained by the search loop: the value at `lo` is at
most the target, and `hi` is either the final index or holds a value strictly
above the target. -/
def bracketInv {α : Type} [LinearOrder α] (a : List α) (x : α) (lo hi : ℤ) : Prop :=
  (∃ v, jsGet a lo = some v ∧ v ≤ x) ∧
  (hi = (a.length : ℤ) - 1 ∨ ∃ v, jsGet a hi = some v ∧ x < v)

theorem bsGo_bracket {α : Type} [LinearOrder α] (a : List α) (x : α) (fuel : ℕ) :
    ∀ lo hi : ℤ, 0 ≤ lo → lo < hi → hi ≤ (a.length : ℤ) - 1 →
      bracketInv a x lo hi →
      bracketInv a x (bsGo a x fuel lo hi).1 (bsGo a x fuel lo hi).2 := by
  induction fuel with
  | zero =>
    intro lo hi _ _ _ hinv
    simpa only [bsGo] using hinv
  | succ fuel ih =>
    intro lo hi h0 hlt hhi hinv
    rw [bsGo]
    split_ifs with hgap hle
    · have hm := bsMid_bounds hgap
      refine ih _ _ (by omega) (by omega) hhi ?_
      obtain ⟨w, hw, hwx⟩ := (jsLeOpt_true_iff _ _).mp hle
      exact ⟨⟨w, hw, hwx⟩, hinv.2⟩
    · have hm := bsMid_bounds hgap
      refine ih _ _ h0 (by omega) (by omega) ?_
      obtain ⟨w, hw⟩ := jsGet_of_range a ((lo + hi + 1).fdiv 2) (by omega) (by omega)
      refine ⟨hinv.1, Or.inr ⟨w, hw, ?_⟩⟩
      by_contra hcon
      push_neg at hcon
      exact hle ((jsLeOpt_true_iff _ _).mpr ⟨w, hw, hcon⟩)
    · exact hinv

/-- C1 (amended): for every strictly increasing numeric array `a` (length ≥ 2)
and target `x` with `a[0] ≤ x`, `binarySearch(a, x, false)` returns the
largest index `i` in `[0, a.length - 2]` with `a[i] ≤ x` — the final index
`a.length - 1` is never returned, because the loop only narrows while
`hi - lo > 1` — and with `upper` true it returns that index plus one. -/
theorem C1_binarySearch_bracket (a : List ℚ) (x : ℚ)
    (hsort : a.Pairwise (· < ·)) (hlen : 2 ≤ a.length)
    (hfirst : ∃ v, jsGet a 0 = some v ∧ v ≤ x) :
    binarySearch a x true = binarySearch a x false + 1 ∧
    0 ≤ binarySearch a x false ∧
    binarySearch a x false ≤ (a.length : ℤ) - 2 ∧
    (∃ v, jsGet a (binarySearch a x false) = some v ∧ v ≤ x) ∧
    (∀ i : ℤ, binarySearch a x false < i → i ≤ (a.length : ℤ) - 2 →
      ∀ v, jsGet a i = some v → x < v) := by
  have hlen1 : (1 : ℤ) ≤ (a.length : ℤ) - 1 := by
    have : (2 : ℤ) ≤ (a.length : ℤ) := by exact_mod_cast hlen
    omega
  have hgap := bsGo_gap a x a.length 0 ((a.length : ℤ) - 1) (by omega)
  have hmem := bsGo_mem a x a.length 0 ((a.length : ℤ) - 1) (by omega)
  have hbrk := bsGo_bracket a x a.length 0 ((a.length : ℤ) - 1) le_rfl (by omega)
    le_rfl ⟨hfirst, Or.inl rfl⟩
  have hlow : binarySearch a x false = (bsGo a x a.length 0 ((a.length : ℤ) - 1)).1 := by
    simp [binarySearch]
  have hup : binarySearch a x true = (bsGo a x a.length 0 ((a.length : ℤ) - 1)).2 := by
    simp [binarySearch]
  rw [hlow, hup]
  refine ⟨by omega, by omega, by omega, hbrk.1, ?_⟩
  intro i hi1 hi2 v hv
  rcases hbrk.2 with hend | ⟨w, hw, hxw⟩
  · omega
  · have hle : w ≤ v := jsGet_mono hsort (by omega) hw hv
    exact lt_of_lt_of_le hxw hle

/-- Witness for C1: at `a = [0, 1, 2]`, `x = 1`, the hypotheses hold and the
bracketing conclusion follows (lower result `1`, upper result `2`). -/
theorem C1_binarySearch_bracket_witness :
    (List.Pairwise (· < ·) [(0 : ℚ), 1, 2] ∧ 2 ≤ ([(0 : ℚ), 1, 2]).length ∧
      (∃ v, jsGet [(0 : ℚ), 1, 2] 0 = some v ∧ v ≤ 1)) ∧
    (binarySearch [(0 : ℚ), 1, 2] 1 true = binarySearch [(0 : ℚ), 1, 2] 1 false + 1 ∧
      0 ≤ binarySearch [(0 : ℚ), 1, 2] 1 false ∧
      binarySearch [(0 : ℚ), 1, 2] 1 false ≤ (([(0 : ℚ), 1, 2]).length : ℤ) - 2 ∧
      (∃ v, jsGet [(0 : ℚ), 1, 2] (binarySearch [(0 : ℚ), 1, 2] 1 false) = some v ∧ v ≤ 1) ∧
      (∀ i : ℤ, binarySearch [(0 : ℚ), 1, 2] 1 false < i →
        i ≤ (([(0 : ℚ), 1, 2]).length : ℤ) - 2 →
        ∀ v, jsGet [(0 : ℚ), 1, 2] i = some v → (1 : ℚ) < v)) :=
  ⟨⟨by decide, by decide, ⟨0, by decide, by norm_num⟩⟩,
    C1_binarySearch_bracket [(0 : ℚ), 1, 2] 1 (by decide) (by decide)
      ⟨0, by decide, by norm_num⟩⟩

/-- C1 counterexample: with `a = [0, 1]` (strictly increasing, length 2) and
target `1 ≥ a[0]`, the index `1` satisfies `a[1] ≤ 1`, yet
`binarySearch(a, 1, false)` returns `0`: it is not the largest index with
`a[i] ≤ target`, since the loop never returns the final index. -/
theorem C1_cex_binarySearch_last_index :
    binarySearch [(0 : ℚ), 1] 1 false = 0 ∧
    jsGet [(0 : ℚ), 1] 1 = some 1 ∧ (1 : ℚ) ≤ 1 ∧ (0 : ℤ) < 1 := by
  refine ⟨by decide, by decide, by norm_num, by norm_num⟩

/-- Bounds on both search results for every non-empty array: lower at most
upper, both within `[0, length - 1]`. -/
theorem binarySearch_bounds {α : Type} [LinearOrder α] (a : List α) (x : α)
    (hpos : 0 < a.length) :
    binarySearch a x false ≤ binarySearch a x true ∧
    0 ≤ binarySearch a x false ∧ binarySearch a x false ≤ (a.length : ℤ) - 1 ∧
    0 ≤ binarySearch a x true ∧ binarySearch a x true ≤ (a.length : ℤ) - 1 := by
  have hlow : binarySearch a x false = (bsGo a x a.length 0 ((a.length : ℤ) - 1)).1 := by
    simp [binarySearch]
  have hup : binarySearch a x true = (bsGo a x a.length 0 ((a.length : ℤ) - 1)).2 := by
    simp [binarySearch]
  rw [hlow, hup]
  rcases eq_or_lt_of_le hpos with h1 | h2
  · have hlen : a.length = 1 := h1.symm
    rw [hlen]
    rw [show ((1 : ℕ) : ℤ) - 1 = 0 by norm_num]
    rw [show (1 : ℕ) = 0 + 1 from rfl, bsGo]
    norm_num
  · have hmem := bsGo_mem a x a.length 0 ((a.length : ℤ) - 1) (by omega)
    omega

/-- C9: for every strictly increasing non-empty numeric array and every
target, the lower search result is at most the upper one and both are valid
indices into the array. -/
theorem C9_binarySearch_valid (a : List ℚ) (x : ℚ)
    (hne : a ≠ []) (hsort : a.Pairwise (· < ·)) :
    binarySearch a x false ≤ binarySearch a x true ∧
    0 ≤ binarySearch a x false ∧ binarySearch a x false ≤ (a.length : ℤ) - 1 ∧
    0 ≤ binarySearch a x true ∧ binarySearch a x true ≤ (a.length : ℤ) - 1 :=
  binarySearch_bounds a x (List.length_pos.mpr hne)

/-- Witness for C9: the hypotheses and conclusion at `a = [0, 1, 2]`, `x = 5`. -/
theorem C9_binarySearch_valid_witness :
    (([(0 : ℚ), 1, 2]) ≠ [] ∧ List.Pairwise (· < ·) [(0 : ℚ), 1, 2]) ∧
    (binarySearch [(0 : ℚ), 1, 2] 5 false ≤ binarySearch [(0 : ℚ), 1, 2] 5 true ∧
      0 ≤ binarySearch [(0 : ℚ), 1, 2] 5 false ∧
      binarySearch [(0 : ℚ), 1, 2] 5 false ≤ (([(0 : ℚ), 1, 2]).length : ℤ) - 1 ∧
      0 ≤ binarySearch [(0 : ℚ), 1, 2] 5 true ∧
      binarySearch [(0 : ℚ), 1, 2] 5 true ≤ (([(0 : ℚ), 1, 2]).length : ℤ) - 1) :=
  ⟨⟨by decide, by decide⟩,
    C9_binarySearch_valid [(0 : ℚ), 1, 2] 5 (by decide) (by decide)⟩

/-- Piecewise color filter attached to a series.  `index` holds the boundary
indices and `colors` the per-segment colors (display strings in the source,
modelled as opaque numeric identifiers).  `curFiltInd` is a JavaScript number
the code itself mutates, hence `ℤ`; `nextInd` can hold a boundary index, the
sentinel `-1`, or `undefined` (after reading past the end of `index`). -/
structure Filter where
  index : List ℤ
  colors : List ℕ
  curFiltInd : ℤ
  nextInd : Option ℤ
deriving DecidableEq

/-- Shape of the y data of a series: a flat list of numbers or a list of
fixed-width-in-intent (but unchecked) tuples (src/plot.js lines 12-18). -/
inductive YValues : Type
  | flat (ys : List ℚ)
  | tuples (ys : List (List ℚ))
deriving DecidableEq

/-- Plot quality mode stored from `options.plotType`; the renderer compares
against the string value `quick` (src/plot.js line 587). -/
inductive PlotType : Type
  | normal
  | quick
deriving DecidableEq

/-- Optional constructor arguments of `DashGraph.Data`. -/
structure DataOptions where
  plotType : Option PlotType := none
  filter : Option Filter := none

/-- State of one data series, `DashGraph.Data` (src/plot.js lines 27-53). -/
structure Data where
  x : List ℚ
  y : YValues
  plotType : PlotType
  filter : Option Filter
  hasFilter : Bool
  hasColor : Bool
  startInd : ℤ
  stopInd : ℤ
deriving DecidableEq

/-- Constructor `DashGraph.Data(x, y, options)` (src/plot.js lines 27-53): the
inputs are stored as given, defaults are filled in, and the window is set to
the full extent.  The constructor performs no validation of any kind. -/
def mkData (x : List ℚ) (y : YValues) (options : DataOptions) : Data :=
  { x := x
    y := y
    plotType := match options.plotType with | some t => t | none => PlotType.normal
    filter := options.filter
    hasFilter := options.filter.isSome
    hasColor := options.filter.isSome
    startInd := 0
    stopInd := (x.length : ℤ) - 1 }

/-- Filter half of `DashGraph.Data.prototype.resetBounds` (src/plot.js lines
62-72): cursor to segment `0`; `nextInd` is the sentinel `-1` when segment `0`
is already the last one, else the next boundary `index[1]`. -/
def Filter.reset (f : Filter) : Filter :=
  if (0 : ℤ) = (f.index.length : ℤ) - 1 then
    { f with curFiltInd := 0, nextInd := some (-1) }
  else
    { f with curFiltInd := 0, nextInd := jsGet f.index 1 }

/-- `DashGraph.Data.prototype.resetBounds` (src/plot.js lines 58-73). -/
def Data.resetBounds (d : Data) : Data :=
  { d with startInd := 0
           stopInd := (d.x.length : ℤ) - 1
           filter := d.filter.map Filter.reset }

/-- Filter half of `DashGraph.Data.prototype.setBounds` (src/plot.js lines
86-95): when the resolved start index lies beyond the last boundary, the
cursor is pinned to the final segment with sentinel `-1`; otherwise the
cursor segment is located by binary search over the boundary indices and
`nextInd` reads the following boundary (possibly `undefined`). -/
def Filter.setTo (f : Filter) (startInd : ℤ) : Filter :=
  if jsLtOpt (jsGet f.index ((f.index.length : ℤ) - 1)) startInd then
    { f with curFiltInd := (f.index.length : ℤ) - 1, nextInd := some (-1) }
  else
    { f with curFiltInd := binarySearch f.index startInd false
             nextInd := jsGet f.index (binarySearch f.index startInd false + 1) }

/-- `DashGraph.Data.prototype.setBounds(startTime, stopTime)` (src/plot.js
lines 81-96): the third `binarySearch` argument is omitted (falsy) for the
start and `true` for the stop. -/
def Data.setBounds (d : Data) (startTime stopTime : ℚ) : Data :=
  { d with startInd := binarySearch d.x startTime false
           stopInd := binarySearch d.x stopTime true
           filter := d.filter.map (fun f => f.setTo (binarySearch d.x startTime false)) }

/-- `DashGraph.Data.prototype.updateFilter(ind)` (src/plot.js lines 146-160):
advances the cursor exactly when `ind === nextInd` (strict equality, so an
`undefined` `nextInd` never matches a number) and reports whether the color
changed. -/
def Filter.update (f : Filter) (ind : ℤ) : Filter × Bool :=
  if f.nextInd = some ind then
    if f.curFiltInd + 1 < (f.index.length : ℤ) then
      ({ f with curFiltInd := f.curFiltInd + 1
                nextInd := jsGet f.index (f.curFiltInd + 1 + 1) }, true)
    else
      ({ f with curFiltInd := f.curFiltInd + 1, nextInd := some (-1) }, true)
  else (f, false)

/-- Color lookup `this.filter.colors[this.filter.curFiltInd]`; `none` is an
out-of-range read (`undefined`). -/
def Filter.color (f : Filter) : Option ℕ :=
  jsGet f.colors f.curFiltInd

/-- `DashGraph.Data.prototype.getColor` (src/plot.js lines 166-173); `none`
covers both the explicit `null` of the filterless case and an `undefined`
out-of-range read. -/
def Data.getColor (d : Data) : Option ℕ :=
  match d.filter with
  | some f => f.color
  | none => none

/-- Replay of the `updateFilter` calls renderData makes while walking a
window, returning the final filter state and how many calls reported a color
change. -/
def Filter.replay (f : Filter) : List ℤ → Filter × ℕ
  | [] => (f, 0)
  | i :: rest =>
    let r := Filter.update f i
    let rr := Filter.replay r.1 rest
    (rr.1, (if r.2 then 1 else 0) + rr.2)

/-- Indices at which renderData queries the filter for one window: the loop
`for (i = data.startInd+1; i <= data.stopInd; i++)` (src/plot.js line 652). -/
def Data.windowIndices (d : Data) : List ℤ :=
  (List.range (d.stopInd - d.startInd).toNat).map (fun i => d.startInd + 1 + (i : ℤ))

/-- Cursor invariant of the filter state machine: the cursor denotes a real
segment, and whenever `nextInd` holds a nonnegative number (the only values a
rendering index can strictly-equal), the cursor is not yet on the last
segment. -/
def FilterInv (f : Filter) : Prop :=
  0 ≤ f.curFiltInd ∧ f.curFiltInd ≤ (f.index.length : ℤ) - 1 ∧
  (∀ v : ℤ, f.nextInd = some v → 0 ≤ v → f.curFiltInd ≤ (f.index.length : ℤ) - 2)

theorem jsGet_eq_none_of_ge {α : Type} (a : List α) (i : ℤ)
    (h : (a.length : ℤ) ≤ i) : jsGet a i = none := by
  unfold jsGet
  split_ifs with hneg
  · rfl
  · rw [List.getElem?_eq_none]
    omega

theorem Filter.reset_inv (f : Filter) (hlen : 1 ≤ f.index.length) :
    FilterInv f.reset ∧ f.reset.index = f.index ∧ f.reset.colors = f.colors := by
  unfold FilterInv Filter.reset
  split_ifs with h
  · refine ⟨⟨by dsimp only; omega, by dsimp only; omega, ?_⟩, rfl, rfl⟩
    dsimp only
    intro v hv hv0
    simp only [Option.some.injEq] at hv
    omega
  · refine ⟨⟨by dsimp only; omega, by dsimp only; omega, ?_⟩, rfl, rfl⟩
    dsimp only
    intro v hv hv0
    omega

theorem Filter.setTo_inv (f : Filter) (s : ℤ) (hlen : 1 ≤ f.index.length) :
    FilterInv (f.setTo s) ∧ (f.setTo s).index = f.index ∧
    (f.setTo s).colors = f.colors := by
  unfold FilterInv Filter.setTo
  split_ifs with h
  · refine ⟨⟨by dsimp only; omega, by dsimp only; omega, ?_⟩, rfl, rfl⟩
    dsimp only
    intro v hv hv0
    simp only [Option.some.injEq] at hv
    omega
  · have hb := binarySearch_bounds f.index s (by omega)
    refine ⟨⟨by dsimp only; omega, by dsimp only; omega, ?_⟩, rfl, rfl⟩
    dsimp only
    intro v hv hv0
    rw [jsGet_eq_some_iff] at hv
    obtain ⟨h0, hrange, -⟩ := hv
    omega

theorem Filter.update_inv {f : Filter} (hf : FilterInv f) {i : ℤ} (hi : 0 ≤ i) :
    FilterInv (f.update i).1 ∧ (f.update i).1.index = f.index ∧
    (f.update i).1.colors = f.colors := by
  obtain ⟨h1, h2, h3⟩ := hf
  unfold FilterInv Filter.update
  split_ifs with hmatch hcur
  · have hlast := h3 i hmatch hi
    refine ⟨⟨by dsimp only; omega, by dsimp only; omega, ?_⟩, rfl, rfl⟩
    dsimp only
    intro v hv hv0
    rw [jsGet_eq_some_iff] at hv
    obtain ⟨hv1, hvrange, -⟩ := hv
    omega
  · have hlast := h3 i hmatch hi
    refine ⟨⟨by dsimp only; omega, by dsimp only; omega, ?_⟩, rfl, rfl⟩
    dsimp only
    intro v hv hv0
    simp only [Option.some.injEq] at hv
    omega
  · exact ⟨⟨h1, h2, h3⟩, rfl, rfl⟩

theorem Filter.replay_inv (inds : List ℤ) :
    ∀ f : Filter, (∀ i ∈ inds, 0 ≤ i) → FilterInv f →
      FilterInv (Filter.replay f inds).1 ∧
      (Filter.replay f inds).1.index = f.index ∧
      (Filter.replay f inds).1.colors = f.colors := by
  induction inds with
  | nil =>
    intro f _ hf
    exact ⟨hf, rfl, rfl⟩
  | cons i rest ih =>
    intro f hpos hf
    have hi : 0 ≤ i := hpos i (List.mem_cons_self i rest)
    obtain ⟨hstep, hind, hcol⟩ := Filter.update_inv hf hi
    obtain ⟨hrec, hind2, hcol2⟩ :=
      ih (f.update i).1 (fun j hj => hpos j (List.mem_cons_of_mem i hj)) hstep
    simp only [Filter.replay]
    exact ⟨hrec, by rw [hind2, hind], by rw [hcol2, hcol]⟩

/-- A filter whose cursor sits on the last segment is never advanced by a
nonnegative rendering index. -/
theorem Filter.update_last_fixed {g : Filter} (hg : FilterInv g) {j : ℤ}
    (hj : 0 ≤ j) (hlast : g.curFiltInd = (g.index.length : ℤ) - 1) :
    (g.update j).1.curFiltInd = g.curFiltInd := by
  obtain ⟨-, -, h3⟩ := hg
  unfold Filter.update
  split_ifs with hmatch hcur
  · have := h3 j hmatch hj
    dsimp only
    omega
  · have := h3 j hmatch hj
    dsimp only
    omega
  · rfl

theorem jsGet_mem {α : Type} {a : List α} {i : ℤ} {v : α}
    (h : jsGet a i = some v) : v ∈ a := by
  rw [jsGet_eq_some_iff] at h
  obtain ⟨-, hrange, hval⟩ := h
  rw [← hval]
  exact List.get_mem _ _ _

/-- Initial filter state of a window change: `resetBounds` when auto-fitting,
the filter half of `setBounds` with the resolved start index otherwise. -/
def Filter.windowInit (f : Filter) (start : Option ℤ) : Filter :=
  match start with
  | none => f.reset
  | some s => f.setTo s

/-- Filter state after a window change followed by a rendering replay. -/
def Filter.afterWindow (f : Filter) (start : Option ℤ) (inds : List ℤ) : Filter :=
  (Filter.replay (f.windowInit start) inds).1

theorem Filter.windowInit_inv (f : Filter) (start : Option ℤ)
    (hlen : 1 ≤ f.index.length) :
    FilterInv (f.windowInit start) ∧ (f.windowInit start).index = f.index ∧
    (f.windowInit start).colors = f.colors := by
  cases start with
  | none => exact Filter.reset_inv f hlen
  | some s => exact Filter.setTo_inv f s hlen

/-- C10 (amended): for a filter with at least one strictly increasing boundary
index and as many colors as boundaries, after `resetBounds` or `setBounds`
(any resolved start index) and any sequence of `updateFilter` calls with
NONNEGATIVE numeric indices — the only indices renderData ever passes —
`curFiltInd` stays in `[0, n-1]`, `getColor` returns an actual element of the
colors array, and once the cursor is on the last segment a further
`updateFilter` never advances it.  (The original claim, which allowed every
numeric index, fails at `-1`: the sentinel `nextInd = -1` strict-equals it.) -/
theorem C10_filter_cursor_invariant (f : Filter) (start : Option ℤ)
    (inds : List ℤ) (hlen : 1 ≤ f.index.length)
    (hinc : f.index.Pairwise (· < ·))
    (hcol : f.colors.length = f.index.length)
    (hpos : ∀ i ∈ inds, 0 ≤ i) :
    0 ≤ (f.afterWindow start inds).curFiltInd ∧
    (f.afterWindow start inds).curFiltInd ≤ (f.index.length : ℤ) - 1 ∧
    (∃ c, (f.afterWindow start inds).color = some c ∧ c ∈ f.colors) ∧
    (∀ j : ℤ, 0 ≤ j →
      (f.afterWindow start inds).curFiltInd = (f.index.length : ℤ) - 1 →
      ((f.afterWindow start inds).update j).1.curFiltInd =
        (f.afterWindow start inds).curFiltInd) := by
  obtain ⟨hinv0, hind0, hcol0⟩ := Filter.windowInit_inv f start hlen
  obtain ⟨hinv, hind, hcols⟩ := Filter.replay_inv inds _ hpos hinv0
  rw [hind0] at hind
  rw [hcol0] at hcols
  unfold Filter.afterWindow
  have g1 := hinv.1
  have g2 := hinv.2.1
  rw [hind] at g2
  refine ⟨g1, g2, ?_, ?_⟩
  · obtain ⟨c, hc⟩ := jsGet_of_range
      (Filter.replay (f.windowInit start) inds).1.colors
      (Filter.replay (f.windowInit start) inds).1.curFiltInd g1
      (by rw [hcols, hcol]; omega)
    refine ⟨c, ?_, ?_⟩
    · unfold Filter.color
      exact hc
    · have := jsGet_mem hc
      rwa [hcols] at this
  · intro j hj hlast
    refine Filter.update_last_fixed hinv hj ?_
    rw [hind]
    exact hlast

/-- Length of the y data of a series (number of x positions covered). -/
def YValues.length : YValues → ℕ
  | YValues.flat ys => ys.length
  | YValues.tuples ys => ys.length

/-- Concrete 5-point scenario of C4: color filter with boundaries `[0, 2, 4]`
and 3 colors over `x = [0, 1, 2, 3, 4]`; cursor fields start unset. -/
def c4Filter : Filter :=
  { index := [0, 2, 4], colors := [0, 1, 2], curFiltInd := 0, nextInd := none }

def c4Data : Data :=
  mkData [0, 1, 2, 3, 4] (YValues.flat [0, 0, 0, 0, 0])
    { plotType := none, filter := some c4Filter }

/-- Window of C4's second part: `setBounds(3, 4)`, which resolves the window
start to index 3 and the stop to index 4. -/
def c4Zoomed : Data :=
  c4Data.setBounds 3 4

/-- C4 (amended): after `resetBounds`, replaying `updateFilter` over the
window indices `1..4` reports a color transition exactly TWICE (at the
boundaries 2 and 4); after `setBounds` resolving the window start to index 3,
the cursor is resynchronised to segment 1 and replaying over the remaining
window index `[4]` reports a transition exactly ONCE — the genuine entry into
the final segment at index 4 — not zero times as the original claim stated;
the two transitions already behind the window start are not re-emitted. -/
theorem C4_color_filter_replay :
    c4Data.resetBounds.filter = some c4Filter.reset ∧
    c4Data.resetBounds.windowIndices = [1, 2, 3, 4] ∧
    (Filter.replay c4Filter.reset [1, 2, 3, 4]).2 = 2 ∧
    c4Zoomed.startInd = 3 ∧ c4Zoomed.stopInd = 4 ∧
    c4Zoomed.windowIndices = [4] ∧
    c4Zoomed.filter = some (c4Filter.setTo 3) ∧
    (c4Filter.setTo 3).curFiltInd = 1 ∧
    (Filter.replay (c4Filter.setTo 3) [4]).2 = 1 := by
  decide

/-- C4 counterexample: in the `setBounds`-to-index-3 scenario the replay over
the remaining window indices reports 1 transition, not the claimed 0. -/
theorem C4_cex_resync_transition_count :
    c4Zoomed.startInd = 3 ∧ c4Zoomed.windowIndices = [4] ∧
    c4Zoomed.filter = some (c4Filter.setTo 3) ∧
    (Filter.replay (c4Filter.setTo 3) c4Zoomed.windowIndices).2 ≠ 0 := by
  decide

/-- Series with mismatched x/y lengths (2 vs 1) fed to the constructor. -/
def c6Invalid : Data :=
  mkData [0, 1] (YValues.flat [5]) { plotType := none, filter := none }

/-- C6 (amended): the `Data` constructor performs no validation whatsoever:
any inputs — mismatched x/y lengths, non-increasing x, ragged tuples —
produce a normally initialised series with the inputs stored as given and the
window set to the full extent, so malformed data is NOT rejected at
construction and is only discovered at use time. -/
theorem C6_constructor_no_validation (x : List ℚ) (y : YValues)
    (options : DataOptions) :
    (mkData x y options).x = x ∧ (mkData x y options).y = y ∧
    (mkData x y options).startInd = 0 ∧
    (mkData x y options).stopInd = (x.length : ℤ) - 1 ∧
    (mkData x y options).filter = options.filter :=
  ⟨rfl, rfl, rfl, rfl, rfl⟩

/-- C6 counterexample: constructing a series whose `x` has length 2 but whose
`y` has length 1 succeeds silently and yields the standard usable window
`[0, 1]` — the constructor reports no error and the series enters the normal
state. -/
theorem C6_cex_mismatched_accepted :
    c6Invalid.x.length = 2 ∧ YValues.length c6Invalid.y = 1 ∧
    c6Invalid.x.length ≠ YValues.length c6Invalid.y ∧
    c6Invalid.startInd = 0 ∧ c6Invalid.stopInd = 1 := by
  decide

/-- Filter used in the C10 witness: three segments. -/
def c10Filter : Filter :=
  { index := [0, 2, 4], colors := [0, 1, 2], curFiltInd := 0, nextInd := none }

/-- Filter used in the C10 counterexample: a single segment, so `resetBounds`
installs the sentinel `nextInd = -1`. -/
def c10Single : Filter :=
  { index := [0], colors := [7], curFiltInd := 0, nextInd := none }

/-- Witness for C10 at boundaries `[0, 2, 4]`, colors `[0, 1, 2]`, a reset
window and the replay `[1, 2, 3, 4]`. -/
theorem C10_filter_cursor_invariant_witness :
    (1 ≤ c10Filter.index.length ∧ List.Pairwise (· < ·) c10Filter.index ∧
      c10Filter.colors.length = c10Filter.index.length ∧
      (∀ i ∈ ([1, 2, 3, 4] : List ℤ), 0 ≤ i)) ∧
    (0 ≤ (c10Filter.afterWindow none [1, 2, 3, 4]).curFiltInd ∧
      (c10Filter.afterWindow none [1, 2, 3, 4]).curFiltInd ≤
        (c10Filter.index.length : ℤ) - 1 ∧
      (∃ c, (c10Filter.afterWindow none [1, 2, 3, 4]).color = some c ∧
        c ∈ c10Filter.colors) ∧
      (∀ j : ℤ, 0 ≤ j →
        (c10Filter.afterWindow none [1, 2, 3, 4]).curFiltInd =
          (c10Filter.index.length : ℤ) - 1 →
        ((c10Filter.afterWindow none [1, 2, 3, 4]).update j).1.curFiltInd =
          (c10Filter.afterWindow none [1, 2, 3, 4]).curFiltInd)) :=
  ⟨⟨by decide, by decide, by decide, by decide⟩,
    C10_filter_cursor_invariant c10Filter none [1, 2, 3, 4] (by decide)
      (by decide) (by decide) (by decide)⟩

/-- C10 counterexample: with one boundary `[0]` and one color, `resetBounds`
installs the sentinel `nextInd = -1`; the NUMERIC index `-1` strict-equals
it, so a single `updateFilter(-1)` pushes `curFiltInd` to `1`, outside
`[0, n-1]`, after which `getColor` reads `colors[1] = undefined`. -/
theorem C10_cex_negative_index :
    (Filter.replay c10Single.reset [-1]).1.curFiltInd = 1 ∧
    ¬ ((Filter.replay c10Single.reset [-1]).1.curFiltInd ≤
        (c10Single.index.length : ℤ) - 1) ∧
    (Filter.replay c10Single.reset [-1]).1.color = none := by
  decide

/-- Per-series skip test at the top of renderData's loop (src/plot.js line
617): `data.x[0] > this.zoom.xMax || data.x[data.x.length-1] < this.zoom.xMin`.
The zoom fields hold `null` (`none`) in auto-fit mode, and the relational
operators coerce `null` to the number `0`. -/
def seriesSkipped (d : Data) (zoomXMin zoomXMax : Option ℚ) : Bool :=
  jsGtOpt (jsGet d.x 0) (jsNumOrNull zoomXMax) ||
  jsLtOpt (jsGet d.x ((d.x.length : ℤ) - 1)) (jsNumOrNull zoomXMin)

/-- Series renderData actually draws in one pass: the per-series `continue`
skips a series and carries on with the rest (src/plot.js lines 577-738). -/
def drawnSeries (ds : List Data) (zoomXMin zoomXMax : Option ℚ) : List Data :=
  ds.filter (fun d => ! seriesSkipped d zoomXMin zoomXMax)

/-- Series with strictly positive x values. -/
def c2Series : Data :=
  mkData [1, 2, 3] (YValues.flat [0, 0, 0]) { plotType := none, filter := none }

/-- Series whose x range straddles 0. -/
def c2Straddling : Data :=
  mkData [-1, 0, 1] (YValues.flat [0, 0, 0]) { plotType := none, filter := none }

/-- C2 evaluation at the failing input: in auto-fit mode (`zoom.xMin =
zoom.xMax = null`) a series with `x = [1, 2, 3]` is skipped by renderData,
because the guard evaluates `1 > Number(null) = 0` to true — the series is
fully visible yet not drawn.  The skip is per-series: a second series
straddling 0 in the same pass is still drawn. -/
theorem C2_autofit_series_skipped :
    seriesSkipped c2Series none none = true ∧
    drawnSeries [c2Series, c2Straddling] none none = [c2Straddling] := by
  decide

/-- One loop step of the auto-fit x-extrema scan in preprocess (src/plot.js
lines 368-377).  The comparands are read correctly via `data.startInd` /
`data.stopInd` (0 and `length-1` after `resetBounds`), but the assignments
read `data.x[this.startInd]` where `this` is the Plot, which has no
`startInd`, so they store `data.x[undefined] = undefined`. -/
def autoFitStep (acc : Option ℚ × Option ℚ) (d : Data) : Option ℚ × Option ℚ :=
  (if jsGtOptOpt acc.1 (jsGet d.x 0) then none else acc.1,
   if jsLtOptOpt acc.2 (jsGet d.x ((d.x.length : ℤ) - 1)) then none else acc.2)

/-- Auto-fit x extrema `(xMin, xMax)` computed by preprocess (src/plot.js
lines 358-377) over a nonempty series list: seeded from the first series'
first and last x values, then folded over the remaining series. -/
def preprocessAutoFitX (d0 : Data) (rest : List Data) : Option ℚ × Option ℚ :=
  rest.foldl autoFitStep (jsGet d0.x 0, jsGet d0.x ((d0.x.length : ℤ) - 1))

def c3First : Data :=
  mkData [1, 2] (YValues.flat [0, 0]) { plotType := none, filter := none }

def c3Second : Data :=
  mkData [0, 3] (YValues.flat [0, 0]) { plotType := none, filter := none }

/-- C3 evaluation at the failing input: with series `x = [1, 2]` and
`x = [0, 3]` in auto-fit mode, the merged extrema should be `xMin = 0`,
`xMax = 3`, but preprocess stores `undefined` for both: the update branches
fire (`1 > 0` and `2 < 3`) and each assigns `data.x[this.startInd]`, i.e.
`undefined`, thanks to the `this`/`data` typo. -/
theorem C3_autofit_extrema_undefined :
    preprocessAutoFitX c3First [c3Second] = (none, none) ∧
    (none : Option ℚ) ≠ some 0 ∧ (none : Option ℚ) ≠ some 3 := by
  decide

/-- Affine per-axis scale state computed once per render pass by preprocess:
`pixel = value * scale + bias` (src/plot.js lines 390-437). -/
structure PlotScale where
  xScale : ℚ
  xBias : ℚ
  yScale : ℚ
  yBias : ℚ

/-- `DashGraph.Plot.prototype.getXCanvasPos` (src/plot.js lines 945-947). -/
def PlotScale.getXCanvasPos (p : PlotScale) (x : ℚ) : ℚ :=
  x * p.xScale + p.xBias

/-- `DashGraph.Plot.prototype.getXPixelPos` (src/plot.js lines 952-956). -/
def PlotScale.getXPixelPos (p : PlotScale) (x : ℚ) : ℚ :=
  (x - p.xBias) / p.xScale

/-- `DashGraph.Plot.prototype.getYCanvasPos` (src/plot.js lines 961-963). -/
def PlotScale.getYCanvasPos (p : PlotScale) (y : ℚ) : ℚ :=
  y * p.yScale + p.yBias

/-- `DashGraph.Plot.prototype.getYPixelPos` (src/plot.js lines 968-971). -/
def PlotScale.getYPixelPos (p : PlotScale) (y : ℚ) : ℚ :=
  (y - p.yBias) / p.yScale

/-- C7: with nonzero scale factors, the value→pixel and pixel→value maps are
exact mutual inverses over exact rational arithmetic, for every value, on
both axes. -/
theorem C7_scale_roundtrip (p : PlotScale) (v : ℚ)
    (hx : p.xScale ≠ 0) (hy : p.yScale ≠ 0) :
    p.getXPixelPos (p.getXCanvasPos v) = v ∧
    p.getYPixelPos (p.getYCanvasPos v) = v ∧
    p.getXCanvasPos (p.getXPixelPos v) = v ∧
    p.getYCanvasPos (p.getYPixelPos v) = v := by
  unfold PlotScale.getXPixelPos PlotScale.getXCanvasPos
  unfold PlotScale.getYPixelPos PlotScale.getYCanvasPos
  refine ⟨?_, ?_, ?_, ?_⟩ <;> field_simp

/-- Witness for C7 at `xScale = 2, xBias = 3, yScale = -4, yBias = 5, v = 7`. -/
theorem C7_scale_roundtrip_witness :
    ((2 : ℚ) ≠ 0 ∧ (-4 : ℚ) ≠ 0) ∧
    (PlotScale.getXPixelPos ⟨2, 3, -4, 5⟩ (PlotScale.getXCanvasPos ⟨2, 3, -4, 5⟩ 7) = 7 ∧
      PlotScale.getYPixelPos ⟨2, 3, -4, 5⟩ (PlotScale.getYCanvasPos ⟨2, 3, -4, 5⟩ 7) = 7 ∧
      PlotScale.getXCanvasPos ⟨2, 3, -4, 5⟩ (PlotScale.getXPixelPos ⟨2, 3, -4, 5⟩ 7) = 7 ∧
      PlotScale.getYCanvasPos ⟨2, 3, -4, 5⟩ (PlotScale.getYPixelPos ⟨2, 3, -4, 5⟩ 7) = 7) :=
  ⟨⟨by norm_num, by norm_num⟩,
    C7_scale_roundtrip ⟨2, 3, -4, 5⟩ 7 (by norm_num) (by norm_num)⟩

/-- Axis-lock logic of `DashGraph.Plot.prototype.onmousemove` (src/plot.js
lines 807-835): with a drag in progress it compares the absolute drag
distances from the anchor; `xDist > yDist && xDist > 1` locks the x axis,
`yDist > xDist && yDist > 1` locks the y axis, otherwise the flags are left
unchanged.  Returns the new `(xZooming, yZooming)` pair. -/
def onmousemoveLock (zooming xZooming yZooming : Bool)
    (xZoomStart yZoomStart xPos yPos : ℚ) : Bool × Bool :=
  if zooming then
    if |xPos - xZoomStart| > |yPos - yZoomStart| ∧ |xPos - xZoomStart| > 1 then
      (true, false)
    else if |yPos - yZoomStart| > |xPos - xZoomStart| ∧ |yPos - yZoomStart| > 1 then
      (false, true)
    else (xZooming, yZooming)
  else (xZooming, yZooming)

/-- C8 (amended): while a drag is in progress and no axis is locked yet, a
pointer move locks an axis exactly when one drag distance strictly dominates
the other AND that dominant distance exceeds the 1-pixel threshold; the
dominated distance is NOT required to exceed the threshold (the original
claim required both to). -/
theorem C8_axis_lock_condition (xZoomStart yZoomStart xPos yPos : ℚ) :
    (onmousemoveLock true false false xZoomStart yZoomStart xPos yPos ≠ (false, false) ↔
      ((|xPos - xZoomStart| > |yPos - yZoomStart| ∧ |xPos - xZoomStart| > 1) ∨
        (|yPos - yZoomStart| > |xPos - xZoomStart| ∧ |yPos - yZoomStart| > 1))) ∧
    (onmousemoveLock true false false xZoomStart yZoomStart xPos yPos = (true, false) ↔
      (|xPos - xZoomStart| > |yPos - yZoomStart| ∧ |xPos - xZoomStart| > 1)) ∧
    (onmousemoveLock true false false xZoomStart yZoomStart xPos yPos = (false, true) ↔
      (|yPos - yZoomStart| > |xPos - xZoomStart| ∧ |yPos - yZoomStart| > 1)) := by
  unfold onmousemoveLock
  by_cases hA : |xPos - xZoomStart| > |yPos - yZoomStart| ∧ |xPos - xZoomStart| > 1
  · have hnB : ¬ (|yPos - yZoomStart| > |xPos - xZoomStart| ∧ |yPos - yZoomStart| > 1) :=
      fun hB => absurd hB.1 (not_lt.mpr (le_of_lt hA.1))
    simp [hA, hnB]
  · by_cases hB : |yPos - yZoomStart| > |xPos - xZoomStart| ∧ |yPos - yZoomStart| > 1
    · simp [hA, hB]
    · simp [hA, hB]

/-- C8 counterexample: drag in progress, no axis locked, pointer moved 5 px
horizontally and 0 px vertically from the anchor: the vertical distance does
not exceed the 1-pixel threshold, yet the x axis IS locked — refuting the
claim that both distances must exceed the threshold before a lock happens. -/
theorem C8_cex_lock_without_both :
    onmousemoveLock true false false 0 0 5 0 = (true, false) ∧
    |(0 : ℚ) - 0| ≤ 1 := by
  constructor
  · unfold onmousemoveLock
    norm_num
  · norm_num

/-- Base power `Math.floor(Math.log(maxVal - minVal)/Math.LN10)` of getTicks
(src/plot.js line 982): the exact base-10 logarithm floor of the range. -/
def basePower (minVal maxVal : ℚ) : ℤ :=
  Int.log 10 (maxVal - minVal)

/-- Base scale `Math.pow(10, basePower)` (src/plot.js line 987). -/
def baseScale (minVal maxVal : ℚ) : ℚ :=
  (10 : ℚ) ^ basePower minVal maxVal

/-- Candidate grid start `low = Math.floor(minVal/scale)*scale` (line 990). -/
def tickLow (minVal scale : ℚ) : ℚ :=
  (⌊minVal / scale⌋ : ℚ) * scale

/-- Candidate grid end `high = Math.ceil(maxVal/scale)*scale` (line 991). -/
def tickHigh (maxVal scale : ℚ) : ℚ :=
  (⌈maxVal / scale⌉ : ℚ) * scale

/-- Candidate tick count `nTicks = Math.abs(high - low)/scale` (line 992). -/
def tickCount (minVal maxVal scale : ℚ) : ℚ :=
  |tickHigh maxVal scale - tickLow minVal scale| / scale

/-- Candidate pixel spacing `spacing = pixels/nTicks` (line 993). -/
def tickSpacing (minVal maxVal pixels scale : ℚ) : ℚ :=
  pixels / tickCount minVal maxVal scale

/-- Multiplier selected by the candidate loop over `[.5, 1, 2, 5]`
(src/plot.js lines 988-995): the first whose implied pixel spacing exceeds
`minTickPixels`; if none qualifies the loop ends on the last candidate 5. -/
def acceptedMult (minTickPixels minVal maxVal pixels : ℚ) : ℚ :=
  if minTickPixels < tickSpacing minVal maxVal pixels (baseScale minVal maxVal * (1/2)) then 1/2
  else if minTickPixels < tickSpacing minVal maxVal pixels (baseScale minVal maxVal * 1) then 1
  else if minTickPixels < tickSpacing minVal maxVal pixels (baseScale minVal maxVal * 2) then 2
  else 5

/-- Step on which getTicks ends its candidate loop. -/
def acceptedScale (minTickPixels minVal maxVal pixels : ℚ) : ℚ :=
  baseScale minVal maxVal * acceptedMult minTickPixels minVal maxVal pixels

/-- Tick emission loop of getTicks for the accepted step (src/plot.js lines
998-1004): `for (i = 0; i < nTicks; i++)` visits the integers
`0 ≤ i < nTicks`, i.e. `⌈nTicks⌉` of them, and pushes `low + i*scale` exactly
when it lies within `[minVal, maxVal]`. -/
def emitTicks (minVal maxVal scale : ℚ) : List ℚ :=
  (List.range ⌈tickCount minVal maxVal scale⌉.toNat).filterMap (fun (i : ℕ) =>
    if minVal ≤ tickLow minVal scale + (i : ℚ) * scale ∧
        tickLow minVal scale + (i : ℚ) * scale ≤ maxVal then
      some (tickLow minVal scale + (i : ℚ) * scale)
    else none)

/-- `DashGraph.Plot.prototype.getTicks(minVal, maxVal, pixels)` (src/plot.js
lines 976-1006), with the plot's `minTickPixels` option as first argument. -/
def getTicks (minTickPixels minVal maxVal pixels : ℚ) : List ℚ :=
  emitTicks minVal maxVal (acceptedScale minTickPixels minVal maxVal pixels)

theorem acceptedMult_mem (minTickPixels minVal maxVal pixels : ℚ) :
    acceptedMult minTickPixels minVal maxVal pixels = 1/2 ∨
    acceptedMult minTickPixels minVal maxVal pixels = 1 ∨
    acceptedMult minTickPixels minVal maxVal pixels = 2 ∨
    acceptedMult minTickPixels minVal maxVal pixels = 5 := by
  unfold acceptedMult
  split_ifs <;> simp

theorem acceptedScale_pos (minTickPixels minVal maxVal pixels : ℚ) :
    0 < acceptedScale minTickPixels minVal maxVal pixels := by
  have hbs : 0 < baseScale minVal maxVal := by
    unfold baseScale
    exact zpow_pos (by norm_num) _
  unfold acceptedScale
  rcases acceptedMult_mem minTickPixels minVal maxVal pixels with h | h | h | h <;>
    rw [h] <;> exact mul_pos hbs (by norm_num)

theorem tick_floor_lt_ceil (minVal maxVal scale : ℚ) (hs : 0 < scale)
    (h : minVal < maxVal) : ⌊minVal / scale⌋ < ⌈maxVal / scale⌉ := by
  have h1 : minVal / scale < maxVal / scale := div_lt_div_of_pos_right h hs
  have h2 : (⌊minVal / scale⌋ : ℚ) < (⌈maxVal / scale⌉ : ℚ) :=
    lt_of_le_of_lt (Int.floor_le _) (lt_of_lt_of_le h1 (Int.le_ceil _))
  exact_mod_cast h2

theorem tickCount_eq (minVal maxVal scale : ℚ) (hs : 0 < scale)
    (h : minVal < maxVal) :
    tickCount minVal maxVal scale =
      ((⌈maxVal / scale⌉ - ⌊minVal / scale⌋ : ℤ) : ℚ) := by
  have hcf := tick_floor_lt_ceil minVal maxVal scale hs h
  unfold tickCount tickHigh tickLow
  have key : (⌈maxVal / scale⌉ : ℚ) * scale - (⌊minVal / scale⌋ : ℚ) * scale =
      ((⌈maxVal / scale⌉ - ⌊minVal / scale⌋ : ℤ) : ℚ) * scale := by
    push_cast
    ring
  rw [key, abs_of_nonneg (mul_nonneg (by exact_mod_cast Int.sub_nonneg.mpr hcf.le) hs.le)]
  rw [mul_div_assoc, div_self hs.ne']
  rw [mul_one]
theorem emitTicks_sorted (minVal maxVal scale : ℚ) (hs : 0 < scale) :
    List.Pairwise (· < ·) (emitTicks minVal maxVal scale) := by
  unfold emitTicks
  rw [List.pairwise_filterMap]
  refine (List.pairwise_lt_range _).imp ?_
  intro i j hij x hx y hy
  simp only [Option.mem_def] at hx hy
  split_ifs at hx hy with hi hj
  · simp only [Option.some.injEq] at hx hy
    subst hx
    subst hy
    have hijq : (i : ℚ) < (j : ℚ) := by exact_mod_cast hij
    have := mul_lt_mul_of_pos_right hijq hs
    linarith

theorem emitTicks_mem (minVal maxVal scale : ℚ) {v : ℚ}
    (hv : v ∈ emitTicks minVal maxVal scale) :
    minVal ≤ v ∧ v ≤ maxVal ∧ ∃ k : ℤ, v = (k : ℚ) * scale := by
  unfold emitTicks at hv
  rw [List.mem_filterMap] at hv
  obtain ⟨i, hi, hif⟩ := hv
  split_ifs at hif with hcond
  · simp only [Option.some.injEq] at hif
    subst hif
    refine ⟨hcond.1, hcond.2, ⟨⌊minVal / scale⌋ + (i : ℤ), ?_⟩⟩
    unfold tickLow
    push_cast
    ring

theorem emitTicks_complete (minVal maxVal scale : ℚ) (hs : 0 < scale)
    (h : minVal < maxVal) (k : ℤ)
    (h1 : minVal ≤ (k : ℚ) * scale) (h2 : (k : ℚ) * scale ≤ maxVal)
    (h3 : (k : ℚ) * scale < tickHigh maxVal scale) :
    (k : ℚ) * scale ∈ emitTicks minVal maxVal scale := by
  have hf : ⌊minVal / scale⌋ ≤ k := by
    have hdiv : minVal / scale ≤ (k : ℚ) := by
      rw [div_le_iff₀ hs]
      exact h1
    have := Int.floor_le_floor hdiv
    rwa [Int.floor_intCast] at this
  have hc : k < ⌈maxVal / scale⌉ := by
    unfold tickHigh at h3
    exact_mod_cast (mul_lt_mul_right hs).mp h3
  have hnn : (0 : ℤ) ≤ k - ⌊minVal / scale⌋ := by omega
  have hcast : (((k - ⌊minVal / scale⌋).toNat : ℕ) : ℚ) =
      (k : ℚ) - (⌊minVal / scale⌋ : ℚ) := by
    have h4 := Int.toNat_of_nonneg hnn
    exact_mod_cast congrArg (fun z : ℤ => (z : ℚ)) h4
  have hval : tickLow minVal scale +
      (((k - ⌊minVal / scale⌋).toNat : ℕ) : ℚ) * scale = (k : ℚ) * scale := by
    unfold tickLow
    rw [hcast]
    ring
  unfold emitTicks
  rw [List.mem_filterMap]
  refine ⟨(k - ⌊minVal / scale⌋).toNat, ?_, ?_⟩
  · rw [List.mem_range, tickCount_eq minVal maxVal scale hs h, Int.ceil_intCast]
    omega
  · rw [hval, if_pos ⟨h1, h2⟩]

/-- C5 (amended): for every `minVal < maxVal`, `getTicks` returns a strictly
ascending list whose elements lie within `[minVal, maxVal]` and on the grid of
the accepted step (the first multiplier in `{0.5, 1, 2, 5}` of
`10^⌊log10(maxVal-minVal)⌋` whose implied pixel spacing exceeds
`minTickPixels`, with multiplier 5 as documented fallback); conversely every
grid value within `[minVal, maxVal]` that is strictly below the top grid
point `ceil(maxVal/step)*step` is emitted.  The original claim's "every tick
value within [minVal, maxVal] inclusive" fails only at that top grid point:
the loop `i < nTicks` stops one step short of it, so a `maxVal` lying exactly
on the grid is never emitted. -/
theorem C5_getTicks_grid (minTickPixels minVal maxVal pixels : ℚ)
    (h : minVal < maxVal) :
    List.Pairwise (· < ·) (getTicks minTickPixels minVal maxVal pixels) ∧
    (∀ v ∈ getTicks minTickPixels minVal maxVal pixels,
      minVal ≤ v ∧ v ≤ maxVal ∧
      ∃ k : ℤ, v = (k : ℚ) * acceptedScale minTickPixels minVal maxVal pixels) ∧
    (∀ k : ℤ,
      minVal ≤ (k : ℚ) * acceptedScale minTickPixels minVal maxVal pixels →
      (k : ℚ) * acceptedScale minTickPixels minVal maxVal pixels ≤ maxVal →
      (k : ℚ) * acceptedScale minTickPixels minVal maxVal pixels <
        tickHigh maxVal (acceptedScale minTickPixels minVal maxVal pixels) →
      (k : ℚ) * acceptedScale minTickPixels minVal maxVal pixels ∈
        getTicks minTickPixels minVal maxVal pixels) := by
  have hs := acceptedScale_pos minTickPixels minVal maxVal pixels
  refine ⟨emitTicks_sorted _ _ _ hs, ?_, ?_⟩
  · intro v hv
    exact emitTicks_mem _ _ _ hv
  · intro k h1 h2 h3
    exact emitTicks_complete _ _ _ hs h k h1 h2 h3

theorem c5Log97 : basePower 0 97 = 1 := by
  unfold basePower
  rw [show (97 : ℚ) - 0 = ((97 : ℕ) : ℚ) by norm_num, Int.log_natCast]
  exact_mod_cast Nat.log_eq_of_pow_le_of_lt_pow (by norm_num) (by norm_num)

theorem c5Scale97 : acceptedScale 40 0 97 400 = 20 := by
  unfold acceptedScale acceptedMult tickSpacing tickCount tickHigh tickLow baseScale
  rw [c5Log97]
  norm_num
  rw [show ⌈(97 : ℚ) / 5⌉ = (20 : ℤ) from by norm_num [Int.ceil_eq_iff],
    show ⌈(97 : ℚ) / 10⌉ = (10 : ℤ) from by norm_num [Int.ceil_eq_iff],
    show ⌈(97 : ℚ) / 20⌉ = (5 : ℤ) from by norm_num [Int.ceil_eq_iff]]
  norm_num

theorem c5Eval97 : getTicks 40 0 97 400 = [0, 20, 40, 60, 80] := by
  unfold getTicks emitTicks
  rw [c5Scale97]
  unfold tickCount tickHigh tickLow
  norm_num
  rw [show ⌈(97 : ℚ) / 20⌉ = (5 : ℤ) from by norm_num [Int.ceil_eq_iff]]
  rw [show (⌈|((5 : ℤ) : ℚ) * 20| / 20⌉ : ℤ) = 5 from by push_cast; norm_num [Int.ceil_eq_iff]]
  rw [show Int.toNat 5 = 5 from rfl]
  norm_num [List.range_succ, List.filterMap_append, List.filterMap_cons, List.filterMap_nil]

theorem c5Spacing97 : tickSpacing 0 97 400 (acceptedScale 40 0 97 400) = 80 := by
  rw [c5Scale97]
  unfold tickSpacing tickCount tickHigh tickLow
  norm_num
  rw [show ⌈(97 : ℚ) / 20⌉ = (5 : ℤ) from by norm_num [Int.ceil_eq_iff]]
  norm_num

/-- Witness for C5 at the spec's instance `getTicks(0, 97, 400)` with
`minTickPixels = 40`: the ticks are `[0, 20, 40, 60, 80]`, on the accepted
step 20 with pixel spacing `80 ≥ 40`, and the grid properties hold. -/
theorem C5_getTicks_grid_witness :
    ((0 : ℚ) < 97 ∧ getTicks 40 0 97 400 = [0, 20, 40, 60, 80] ∧
      acceptedScale 40 0 97 400 = 20 ∧
      tickSpacing 0 97 400 (acceptedScale 40 0 97 400) = 80 ∧ (40 : ℚ) ≤ 80) ∧
    (List.Pairwise (· < ·) (getTicks 40 0 97 400) ∧
      (∀ v ∈ getTicks 40 0 97 400,
        (0 : ℚ) ≤ v ∧ v ≤ 97 ∧ ∃ k : ℤ, v = (k : ℚ) * acceptedScale 40 0 97 400) ∧
      (∀ k : ℤ, (0 : ℚ) ≤ (k : ℚ) * acceptedScale 40 0 97 400 →
        (k : ℚ) * acceptedScale 40 0 97 400 ≤ 97 →
        (k : ℚ) * acceptedScale 40 0 97 400 < tickHigh 97 (acceptedScale 40 0 97 400) →
        (k : ℚ) * acceptedScale 40 0 97 400 ∈ getTicks 40 0 97 400)) :=
  ⟨⟨by norm_num, c5Eval97, c5Scale97, c5Spacing97, by norm_num⟩,
    C5_getTicks_grid 40 0 97 400 (by norm_num)⟩

theorem c5Log100 : basePower 0 100 = 2 := by
  unfold basePower
  rw [show (100 : ℚ) - 0 = ((100 : ℕ) : ℚ) by norm_num, Int.log_natCast]
  exact_mod_cast Nat.log_eq_of_pow_le_of_lt_pow (by norm_num) (by norm_num)

theorem c5Scale100 : acceptedScale 40 0 100 400 = 50 := by
  unfold acceptedScale acceptedMult tickSpacing tickCount tickHigh tickLow baseScale
  rw [c5Log100]
  norm_num

theorem c5Eval100 : getTicks 40 0 100 400 = [0, 50] := by
  unfold getTicks emitTicks
  rw [c5Scale100]
  unfold tickCount tickHigh tickLow
  norm_num
  rw [show Int.toNat 2 = 2 from rfl]
  norm_num [List.range_succ, List.filterMap_append, List.filterMap_cons, List.filterMap_nil]

/-- C5 counterexample: `getTicks(0, 100, 400)` with `minTickPixels = 40`
accepts step 50 and returns only `[0, 50]`; the value `100` lies on the grid
(`100 = 2 * 50`) and within `[0, 100]` inclusive, yet it is NOT emitted — the
emission loop `i < nTicks` always stops one step below the top grid point, so
the claim "every tick value within [minVal, maxVal] inclusive" fails. -/
theorem C5_cex_top_grid_tick_missing :
    getTicks 40 0 100 400 = [0, 50] ∧
    (100 : ℚ) = ((2 : ℤ) : ℚ) * acceptedScale 40 0 100 400 ∧
    (0 : ℚ) ≤ 100 ∧ (100 : ℚ) ≤ 100 ∧
    (100 : ℚ) ∉ getTicks 40 0 100 400 := by
  refine ⟨c5Eval100, ?_, by norm_num, by norm_num, ?_⟩
  · rw [c5Scale100]
    norm_num
  · rw [c5Eval100]
    norm_num

end DashGraph


